import Mathlib

/-!
Shallow embedding of the hornet host/plugin call bridge
(github.com/lovromazgon/hornet) and proofs about its specified behaviour:
the growable buffer (wasm/buffer.go, example/calculator/plugin/main.go),
the pointer+size packing, the protobuf status wire encoding, the
sandbox-side gRPC dispatcher (grpc/server.go), the export binding
(grpc/exports.go), the host-side client (grpc/client.go) and the default
plugin handler (wasm.go).

Modelling conventions: bytes are natural numbers, byte sequences are lists
of naturals, Go strings are lists of characters, machine integers are Nat
with explicit reduction modulo 2 ^ 32 or 2 ^ 64 wherever the Go code
converts between integer widths. A Go function that can panic is embedded
as a function into Option, with none marking the panic. Mutation is
embedded as explicit state passing.
-/

namespace Hornet

/-- Bytes of an ASCII string, as used for status messages on the wire. -/
def strBytes (s : String) : List Nat := s.data.map Char.toNat

/-- Characters of a string: the model of a Go string value. -/
def strChars (s : String) : List Char := s.data

/-- Bytes of a Go string (ASCII), as copied into the shared buffer. -/
def charBytes (l : List Char) : List Nat := l.map Char.toNat

/-- google.golang.org/grpc/codes: codes.InvalidArgument. -/
def codeInvalidArgument : Nat := 3

/-- google.golang.org/grpc/codes: codes.Unimplemented. -/
def codeUnimplemented : Nat := 12

/-- google.golang.org/grpc/codes: codes.Internal. -/
def codeInternal : Nat := 13

/-- A google.rpc.Status record: numeric code plus message bytes
(the optional details field is always empty in this code base). -/
structure GrpcStatus where
  code : Nat
  message : List Nat
deriving DecidableEq

/-- Protobuf base-128 varint encoding of a natural number. -/
def varintEncode (n : Nat) : List Nat :=
  if _h : n < 128 then [n]
  else (n % 128 + 128) :: varintEncode (n / 128)
termination_by n
decreasing_by
  exact Nat.div_lt_self (by omega) (by omega)

/-- Protobuf varint decoding: the decoded value and the remaining bytes. -/
def varintDecode : List Nat → Option (Nat × List Nat)
  | [] => none
  | b :: rest =>
    if b < 128 then some (b, rest)
    else
      match varintDecode rest with
      | some (m, rest') => some (b - 128 + 128 * m, rest')
      | none => none

/-- proto.Marshal of a google.rpc.Status: field 1 (code, varint, tag byte 8)
and field 2 (message, length-delimited, tag byte 18), zero values omitted,
exactly the canonical proto3 encoding produced by the Go protobuf runtime. -/
def statusEncode (st : GrpcStatus) : List Nat :=
  (if st.code = 0 then [] else 8 :: varintEncode st.code) ++
    (if st.message = [] then [] else 18 :: varintEncode st.message.length ++ st.message)

/-- proto.Unmarshal into a google.rpc.Status, on the canonical field layout
emitted by statusEncode; the fuel argument bounds the number of fields. -/
def statusDecodeAux : Nat → List Nat → GrpcStatus → Option GrpcStatus
  | _, [], acc => some acc
  | 0, _ :: _, _ => none
  | fuel + 1, t :: rest, acc =>
    if t = 8 then
      match varintDecode rest with
      | some (c, rest') => statusDecodeAux fuel rest' { acc with code := c }
      | none => none
    else if t = 18 then
      match varintDecode rest with
      | some (len, rest') =>
        if len ≤ rest'.length then
          statusDecodeAux fuel (rest'.drop len) { acc with message := rest'.take len }
        else none
      | none => none
    else none

/-- proto.Unmarshal of status bytes, starting from the zero Status. -/
def statusDecode (bytes : List Nat) : Option GrpcStatus :=
  statusDecodeAux bytes.length bytes ⟨0, []⟩

/-- Lookup in a Go map modelled as an association list. -/
def assocLookup {α β : Type} [DecidableEq α] : List (α × β) → α → Option β
  | [], _ => none
  | (k, v) :: rest, key => if k = key then some v else assocLookup rest key

/-- Insert into a Go map modelled as an association list (overwrites). -/
def mapInsert {α β : Type} [DecidableEq α] : List (α × β) → α → β → List (α × β)
  | [], k, v => [(k, v)]
  | (k', v') :: rest, k, v =>
    if k' = k then (k, v) :: rest else (k', v') :: mapInsert rest k v

/-- A registered method handler. It models grpc.MethodDesc.Handler composed
with the response marshalling: it consumes the raw request bytes (the Go
code hands the handler a decode closure over exactly these bytes) and
produces either the marshalled response record or an error status. -/
def HandlerFn : Type := List Nat → Except GrpcStatus (List Nat)

/-- serviceInfo from grpc/server.go: the method table of one service
(the serviceImpl field is folded into the handlers). -/
structure serviceInfo where
  methods : List (List Char × HandlerFn)

/-- grpc.ServiceDesc: the service name and its method descriptors. -/
structure ServiceDesc where
  serviceName : List Char
  methods : List (List Char × HandlerFn)

/-- Server from grpc/server.go: the registry of services. -/
structure Server where
  services : List (List Char × serviceInfo)

/-- The error message of Server.register on a duplicate name. -/
def duplicateRegistrationError (name : List Char) : String :=
  "found duplicate service registration: \"" ++ String.mk name ++ "\""

/-- Server.register from grpc/server.go: fails and leaves the registry
untouched when the service name is already present, otherwise stores the
method table under the service name. -/
def Server.register (s : Server) (sd : ServiceDesc) : Option String × Server :=
  match assocLookup s.services sd.serviceName with
  | some _ => (some (duplicateRegistrationError sd.serviceName), s)
  | none =>
    let info : serviceInfo :=
      ⟨sd.methods.foldl (fun acc kv => mapInsert acc kv.1 kv.2) []⟩
    (none, ⟨mapInsert s.services sd.serviceName info⟩)

/-- Server.handleError from grpc/server.go: the discriminator byte 1
followed by the marshalled status record. -/
def Server.handleError (st : GrpcStatus) : List Nat :=
  1 :: statusEncode st

/-- strings.LastIndex for a single character: the index of the last
occurrence, none standing for the Go result -1. -/
def lastIdx : List Char → Char → Option Nat
  | [], _ => none
  | x :: xs, c =>
    match lastIdx xs c with
    | some i => some (i + 1)
    | none => if x = c then some 0 else none

/-- The Go string slice s[lo:hi]: defined only when 0 ≤ lo ≤ hi ≤ len(s),
none standing for the slice-bounds panic. -/
def goSubstring (s : List Char) (lo hi : Nat) : Option (List Char) :=
  if lo ≤ hi ∧ hi ≤ s.length then some ((s.take hi).drop lo) else none

/-- Server.Handle from grpc/server.go: parse the method name on its last
slash, route to the registered handler, frame the result with the
discriminator byte. A none result models the Go panic raised by the
slice expression fn[1:pos] when pos = 0. -/
def Server.Handle (s : Server) (fn : List Char) (reqBytes : List Nat) : Option (List Nat) :=
  match lastIdx fn '/' with
  | none => some (Server.handleError ⟨codeUnimplemented, strBytes "malformed method name"⟩)
  | some pos =>
    match goSubstring fn 1 pos with
    | none => none
    | some rawService =>
      let service := if rawService.head? = some '/' then rawService.drop 1 else rawService
      let method := fn.drop (pos + 1)
      match assocLookup s.services service with
      | none => some (Server.handleError ⟨codeUnimplemented, strBytes "unknown service"⟩)
      | some srv =>
        match assocLookup srv.methods method with
        | none => some (Server.handleError ⟨codeUnimplemented, strBytes "unknown method"⟩)
        | some h =>
          match h reqBytes with
          | .error st => some (Server.handleError st)
          | .ok respBytes => some (0 :: respBytes)

/-- The result of one host-side call, as surfaced by ClientConn. -/
inductive InvokeResult where
  /-- A plain client-side error (transport or protocol failure). -/
  | transportErr (msg : String)
  /-- A structured status error built by status.ErrorProto. -/
  | statusErr (st : GrpcStatus)
  /-- Success: the bytes handed to proto.Unmarshal for the caller's
  response record. -/
  | okPayload (payload : List Nat)
deriving DecidableEq

/-- The response processing of ClientConn.invokeCommand (grpc/client.go):
reject an empty response, decode a leading 1 as a status error exposing
the status record's code and message, and otherwise hand the remaining
bytes to the response record decoder. -/
def clientProcessResponse : List Nat → InvokeResult
  | [] => .transportErr "received empty response from Wasm module"
  | b :: rest =>
    if b = 1 then
      match statusDecode rest with
      | some st => .statusErr st
      | none => .transportErr "failed to unmarshal protobuf error response"
    else .okPayload rest

/-- A Go byte slice backed by an array of cap bytes at address addr, of
which the first len are visible. This models the buffer type of
wasm/buffer.go and example/calculator/plugin/main.go. -/
structure buffer where
  arr : List Nat
  len : Nat
  addr : Nat
deriving DecidableEq

/-- newBuffer(size): a zeroed slice with len = cap = size. -/
def newBuffer (size : Nat) (addr : Nat) : buffer :=
  ⟨List.replicate size 0, size, addr⟩

/-- buffer.Grow: reallocate (append) when the capacity is too small,
otherwise only reslice up; never shrinks. Reallocation via Go append is
modelled as allocating exactly the requested capacity at a fresh address.
The Go source runs its two if statements in sequence; since the append
branch always leaves len = size, the second if fires only in the
no-reallocation case, which the flattened branches below mirror. -/
def buffer.Grow (b : buffer) (size : Nat) : Bool × buffer :=
  if b.arr.length < size then
    (true, ⟨b.arr ++ List.replicate (size - b.arr.length) 0, size, b.addr + b.arr.length + 1⟩)
  else if b.len < size then
    (false, ⟨b.arr, size, b.addr⟩)
  else
    (false, b)

/-- buffer.Pointer: the address of byte 0, or the zero sentinel for a
zero-length slice. -/
def buffer.Pointer (b : buffer) : Nat :=
  if b.len = 0 then 0 else b.addr

/-- The packed address: (uint64(pointer) shifted left by 32) or-ed with
uint64(size), with uint64 wraparound made explicit. -/
def packPtrSize (p s : Nat) : Nat :=
  (((p % 2 ^ 64) * 2 ^ 32) % 2 ^ 64) ||| (s % 2 ^ 64)

/-- buffer.PointerAndSize: pointer in the upper 32 bits, length in the
lower 32 bits. -/
def buffer.PointerAndSize (b : buffer) : Nat :=
  packPtrSize b.Pointer b.len

/-- The client-side decode of the upper half: uint32(value shifted right
by 32), from grpc/client.go. -/
def unpackPtr (v : Nat) : Nat := (v >>> 32) % 2 ^ 32

/-- The client-side decode of the lower half: uint32(value). -/
def unpackSize (v : Nat) : Nat := v % 2 ^ 32

/-- malloc from wasm.go: grow the module-global buffer to the requested
size and return its pointer (state-passing form). -/
def malloc (size : Nat) (mallocBuffer : buffer) : Nat × buffer :=
  let b' := (mallocBuffer.Grow size).2
  (b'.Pointer, b')

/-- wazero api.ValueType restricted to the types this code uses. -/
inductive ValueType where
  | i32
  | i64
deriving DecidableEq

/-- functionDefinition from grpc/exports.go: an expected export. -/
structure functionDefinition where
  name : String
  paramTypes : List ValueType
  resultTypes : List ValueType
deriving DecidableEq

/-- The signature a module actually exports under some name. -/
structure apiFunctionDefinition where
  params : List ValueType
  results : List ValueType
deriving DecidableEq

/-- The exported functions of an instantiated module, by name; none when
the export does not exist (wazero then returns a nil function). -/
def ModuleExports : Type := String → Option apiFunctionDefinition

/-- mallocFunctionDefinition from grpc/exports.go: name hornet-v1-malloc,
parameters (i32 pointer, i32 size), result (i32 pointer). -/
def mallocFunctionDefinition : functionDefinition :=
  { name := "hornet-v1-malloc"
    paramTypes := [ValueType.i32, ValueType.i32]
    resultTypes := [ValueType.i32] }

/-- commandFunctionDefinition from grpc/exports.go: name hornet-v1-command,
parameters (i32 pointer, i32 method size, i32 buffer size), result
(i64 packed pointer and size). -/
def commandFunctionDefinition : functionDefinition :=
  { name := "hornet-v1-command"
    paramTypes := [ValueType.i32, ValueType.i32, ValueType.i32]
    resultTypes := [ValueType.i64] }

/-- isValidFunctionDefinition from grpc/exports.go: length checks followed
by the element-wise comparison loops. -/
def isValidFunctionDefinition (want : functionDefinition) (got : apiFunctionDefinition) : Bool :=
  if got.params.length ≠ want.paramTypes.length ∨
      got.results.length ≠ want.resultTypes.length then
    false
  else
    ((got.params.zip want.paramTypes).all fun p => decide (p.1 = p.2)) &&
      ((got.results.zip want.resultTypes).all fun p => decide (p.1 = p.2))

/-- The errors of getExportedFunction. The mismatch error carries the whole
expected definition together with the actual parameter and result types,
as functionDefinitionError does. -/
inductive functionDefinitionError where
  | missingExport (name : String)
  | mismatch (expected : functionDefinition)
      (gotParamTypes gotResultTypes : List ValueType)
deriving DecidableEq

/-- getExportedFunction from grpc/exports.go. When the export is missing,
fn.Definition() panics on the nil function; the deferred recover turns
that into the missing-export error but execution then continues into
isValidFunctionDefinition with a nil definition, whose ParamTypes call
panics again, this time unrecovered — modelled as none (process crash).
When the export exists, an exact signature match yields the handle and a
mismatch yields the error carrying both signatures. -/
def getExportedFunction (module : ModuleExports) (wantFn : functionDefinition) :
    Option (Except functionDefinitionError apiFunctionDefinition) :=
  match module wantFn.name with
  | none => none
  | some d =>
    if isValidFunctionDefinition wantFn d then some (.ok d)
    else some (.error (.mismatch wantFn d.params d.results))

/-- The behaviour of the sandbox module as seen by the host client:
closed flag, the two exports, and linear memory access. -/
structure WasmModule where
  isClosed : Bool
  mallocExport : Nat → Nat
  commandExport : Nat → Nat → Nat → Nat
  memRead : Nat → Nat → Option (List Nat)
  memWriteOk : Nat → List Nat → Bool

/-- The mutable fields of ClientConn (grpc/client.go): the staging buffer,
its capacity and the module-side pointer. -/
structure ConnState where
  buf : List Nat
  bufCap : Nat
  modulePointer : Nat
deriving DecidableEq

/-- One observable interaction of the client with the sandbox instance. -/
inductive WasmEffect where
  | mallocCall (size : Nat)
  | memWrite (ptr : Nat) (bytes : List Nat)
  | commandCall (ptr methodLen totalLen : Nat)
deriving DecidableEq

/-- ClientConn.Invoke from grpc/client.go, with its trace of interactions
with the module: the closed check, then invokeMalloc when the buffer is
too small, writeRequestToModule, invokeCommand and the response decode.
The request argument is the marshalled request record. -/
def ClientConn.Invoke (w : WasmModule) (c : ConnState) (method : List Char)
    (reqEnc : List Nat) : InvokeResult × ConnState × List WasmEffect :=
  if w.isClosed then (.transportErr "module is closed", c, [])
  else
    let msgSize := reqEnc.length + method.length
    let step1 : ConnState × List WasmEffect :=
      if c.bufCap < msgSize then
        ({ buf := List.replicate msgSize 0
           bufCap := msgSize
           modulePointer := w.mallocExport msgSize }, [WasmEffect.mallocCall msgSize])
      else (c, [])
    let c1 := step1.1
    let written := charBytes method ++ reqEnc
    let c2 : ConnState := { c1 with buf := written }
    let effW := step1.2 ++ [WasmEffect.memWrite c2.modulePointer written]
    if w.memWriteOk c2.modulePointer written = false then
      (.transportErr "failed to write to Wasm module memory", c2, effW)
    else
      let r := w.commandExport c2.modulePointer method.length written.length
      let effC := effW ++ [WasmEffect.commandCall c2.modulePointer method.length written.length]
      match w.memRead (unpackPtr r) (unpackSize r) with
      | none => (.transportErr "failed to read from Wasm module memory", c2, effC)
      | some respBytes => (clientProcessResponse respBytes, c2, effC)

/-- The default PluginHandler from wasm.go, used when InitPlugin was never
called: it marshals an Unimplemented status record and returns those bytes
directly — without the leading discriminator byte that Server.handleError
prepends. -/
def defaultPluginHandler (_method : List Char) (_req : List Nat) : List Nat :=
  statusEncode
    ⟨codeUnimplemented,
      strBytes "no plugin handler set, call hornet.InitPlugin() in the Wasm plugin to set a handler"⟩

/-- A handler that succeeds, used to exercise the dispatcher on concrete
inputs. -/
def sampleHandler : HandlerFn := fun req => Except.ok (37 :: req)

/-- A registry with one service Svc holding one method Method. -/
def sampleServer : Server :=
  ⟨[(strChars "Svc", ⟨[(strChars "Method", sampleHandler)]⟩)]⟩

/-- A handler that fails with the invalid-argument status of the
division-by-zero example. -/
def divideHandler : HandlerFn :=
  fun _ => Except.error ⟨codeInvalidArgument, strBytes "division by zero"⟩

/-- A registry with one service Calc holding one failing method Div. -/
def calcServer : Server :=
  ⟨[(strChars "Calc", ⟨[(strChars "Div", divideHandler)]⟩)]⟩

/-! Helper lemmas about the wire encoding. -/

theorem varintDecode_encode (n : Nat) :
    ∀ rest : List Nat, varintDecode (varintEncode n ++ rest) = some (n, rest) := by
  induction n using Nat.strong_induction_on with
  | _ n ih =>
    intro rest
    by_cases h : n < 128
    · rw [varintEncode, dif_pos h]
      simp [varintDecode, h]
    · rw [varintEncode, dif_neg h]
      have hlt : n / 128 < n := Nat.div_lt_self (by omega) (by omega)
      simp only [List.cons_append, varintDecode]
      rw [if_neg (by omega)]
      rw [show (varintEncode (n / 128)).append rest = varintEncode (n / 128) ++ rest from rfl]
      rw [ih (n / 128) hlt rest]
      simp only [Option.some.injEq, Prod.mk.injEq, and_true]
      omega

theorem statusDecodeAux_nil (fuel : Nat) (acc : GrpcStatus) :
    statusDecodeAux fuel [] acc = some acc := by
  cases fuel <;> rfl

theorem statusDecodeAux_codeField (fuel : Nat) (acc : GrpcStatus) (c : Nat)
    (tail : List Nat) (hf : 1 ≤ fuel) :
    statusDecodeAux fuel (8 :: (varintEncode c ++ tail)) acc =
      statusDecodeAux (fuel - 1) tail { acc with code := c } := by
  obtain ⟨f, rfl⟩ : ∃ f, fuel = f + 1 := ⟨fuel - 1, by omega⟩
  simp [statusDecodeAux, varintDecode_encode]

theorem statusDecodeAux_msgField (fuel : Nat) (acc : GrpcStatus) (m : List Nat)
    (hf : 1 ≤ fuel) :
    statusDecodeAux fuel (18 :: (varintEncode m.length ++ m)) acc =
      some ⟨acc.code, m⟩ := by
  obtain ⟨f, rfl⟩ : ∃ f, fuel = f + 1 := ⟨fuel - 1, by omega⟩
  simp [statusDecodeAux, varintDecode_encode, statusDecodeAux_nil]

theorem varintEncode_length_pos (n : Nat) : 1 ≤ (varintEncode n).length := by
  rw [varintEncode]
  split <;> simp

theorem statusDecode_encode (st : GrpcStatus) :
    statusDecode (statusEncode st) = some st := by
  obtain ⟨c, m⟩ := st
  by_cases hc : c = 0 <;> by_cases hm : m = []
  · subst hc; subst hm
    simp [statusDecode, statusEncode, statusDecodeAux]
  · subst hc
    have henc : statusEncode ⟨0, m⟩ = 18 :: (varintEncode m.length ++ m) := by
      simp [statusEncode, hm]
    rw [henc, statusDecode, statusDecodeAux_msgField _ _ _ (by simp)]
  · subst hm
    have henc : statusEncode ⟨c, []⟩ = 8 :: varintEncode c := by
      simp [statusEncode, hc]
    rw [henc, statusDecode,
      show varintEncode c = varintEncode c ++ ([] : List Nat) from (List.append_nil _).symm,
      statusDecodeAux_codeField _ _ _ _ (by simp), statusDecodeAux_nil]
  · have henc : statusEncode ⟨c, m⟩ =
        8 :: (varintEncode c ++ (18 :: (varintEncode m.length ++ m))) := by
      simp [statusEncode, hc, hm]
    rw [henc, statusDecode, statusDecodeAux_codeField _ _ _ _ (by simp),
      statusDecodeAux_msgField _ _ _
        (by simp only [List.length_cons, List.length_append]; omega)]

/-! Helper lemmas about method-name parsing and routing. -/

theorem lastIdx_eq_none {l : List Char} {c : Char} (h : c ∉ l) :
    lastIdx l c = none := by
  induction l with
  | nil => rfl
  | cons x xs ih =>
    simp only [List.mem_cons, not_or] at h
    simp only [lastIdx, ih h.2]
    rw [if_neg fun hx => h.1 hx.symm]

theorem lastIdx_append_last (xs : List Char) {m : List Char} {c : Char}
    (hm : c ∉ m) : lastIdx (xs ++ c :: m) c = some xs.length := by
  induction xs with
  | nil => simp [lastIdx, lastIdx_eq_none hm]
  | cons x xs ih => simp [lastIdx, ih]

theorem Server.Handle_route (s : Server) (S M : List Char) (req : List Nat)
    (hS : '/' ∉ S) (hM : '/' ∉ M) :
    Server.Handle s ('/' :: S ++ '/' :: M) req =
      (match assocLookup s.services S with
      | none => some (Server.handleError ⟨codeUnimplemented, strBytes "unknown service"⟩)
      | some srv =>
        match assocLookup srv.methods M with
        | none => some (Server.handleError ⟨codeUnimplemented, strBytes "unknown method"⟩)
        | some h =>
          match h req with
          | .error st => some (Server.handleError st)
          | .ok respBytes => some (0 :: respBytes)) := by
  have hfn : ('/' :: S ++ '/' :: M) = ('/' :: S) ++ '/' :: M := by simp
  have hpos : lastIdx ('/' :: S ++ '/' :: M) '/' = some (S.length + 1) := by
    rw [hfn, lastIdx_append_last ('/' :: S) hM]
    rfl
  have hsub : goSubstring ('/' :: S ++ '/' :: M) 1 (S.length + 1) = some S := by
    rw [goSubstring, if_pos (by constructor <;> simp)]
    have ht : ('/' :: S ++ '/' :: M).take (S.length + 1) = '/' :: S := by
      rw [hfn, List.take_left' (by simp)]
    rw [ht]
    rfl
  have hserv : (if S.head? = some '/' then S.drop 1 else S) = S := by
    cases S with
    | nil => rfl
    | cons a as =>
      simp only [List.mem_cons, not_or] at hS
      rw [if_neg]
      simp only [List.head?_cons, Option.some.injEq]
      exact fun hx => hS.1 hx.symm
  have hmethod : ('/' :: S ++ '/' :: M).drop (S.length + 1 + 1) = M := by
    have h1 : ('/' :: S ++ '/' :: M).drop (S.length + 1 + 1) =
        (S ++ '/' :: M).drop (S.length + 1) := by
      rw [show S.length + 1 + 1 = (S.length + 1) + 1 from rfl]
      rfl
    rw [h1, show S.length + 1 = S.length + 1 from rfl,
      ← List.drop_drop, List.drop_left]
    rfl
  rw [Server.Handle, hpos]
  simp only [hsub, hserv, hmethod]

/-! Helper lemmas about pointer packing. -/

theorem packPtrSize_shift (p s : Nat) (hp : p < 2 ^ 32) (hs : s < 2 ^ 32) :
    packPtrSize p s = (p <<< 32) ||| s := by
  have h1 : p < 2 ^ 64 := by omega
  have h2 : p * 2 ^ 32 < 2 ^ 64 := by omega
  have h3 : s < 2 ^ 64 := by omega
  rw [packPtrSize, Nat.mod_eq_of_lt h1, Nat.mod_eq_of_lt h2, Nat.mod_eq_of_lt h3,
    Nat.shiftLeft_eq]

theorem unpackPtr_lor (p s : Nat) (hp : p < 2 ^ 32) (hs : s < 2 ^ 32) :
    unpackPtr ((p <<< 32) ||| s) = p := by
  apply Nat.eq_of_testBit_eq
  intro i
  simp only [unpackPtr, Nat.testBit_mod_two_pow, Nat.testBit_shiftRight,
    Nat.testBit_lor, Nat.testBit_shiftLeft]
  by_cases h : i < 32
  · have hsb : s.testBit (32 + i) = false :=
      Nat.testBit_lt_two_pow (lt_of_lt_of_le hs (Nat.pow_le_pow_right (by omega) (by omega)))
    have hd1 : decide (i < 32) = true := by simpa using h
    have hd2 : decide (32 ≤ 32 + i) = true := by simp
    rw [hd1, hd2, hsb]
    simp only [Bool.true_and, Bool.or_false]
    congr 1
    omega
  · have hpb : p.testBit i = false :=
      Nat.testBit_lt_two_pow (lt_of_lt_of_le hp (Nat.pow_le_pow_right (by omega) (by omega)))
    have hd1 : decide (i < 32) = false := by simpa using h
    rw [hd1, hpb]
    simp

theorem unpackSize_lor (p s : Nat) (_hp : p < 2 ^ 32) (hs : s < 2 ^ 32) :
    unpackSize ((p <<< 32) ||| s) = s := by
  apply Nat.eq_of_testBit_eq
  intro i
  simp only [unpackSize, Nat.testBit_mod_two_pow, Nat.testBit_lor, Nat.testBit_shiftLeft]
  by_cases h : i < 32
  · have hd1 : decide (i < 32) = true := by simpa using h
    have hd2 : decide (32 ≤ i) = false := by simpa using by omega
    rw [hd1, hd2]
    simp
  · have hsb : s.testBit i = false :=
      Nat.testBit_lt_two_pow (lt_of_lt_of_le hs (Nat.pow_le_pow_right (by omega) (by omega)))
    have hd1 : decide (i < 32) = false := by simpa using h
    rw [hd1, hsb]
    simp

/-! Helper lemmas about buffer growth. -/

theorem buffer.Grow_of_le (b : buffer) {s : Nat} (h : s ≤ b.arr.length) :
    b.Grow s = (false, ⟨b.arr, max b.len s, b.addr⟩) := by
  rw [buffer.Grow, if_neg (by omega)]
  by_cases h2 : b.len < s
  · rw [if_pos h2, show max b.len s = s by omega]
  · rw [if_neg h2, show max b.len s = b.len by omega]

theorem buffer.Grow_of_gt (b : buffer) {s : Nat} (h : b.arr.length < s) :
    b.Grow s =
      (true, ⟨b.arr ++ List.replicate (s - b.arr.length) 0, s,
        b.addr + b.arr.length + 1⟩) := by
  rw [buffer.Grow, if_pos h]

theorem newBuffer_inv (size addr : Nat) :
    (newBuffer size addr).len ≤ (newBuffer size addr).arr.length ∧
      ((newBuffer size addr).len = 0 → (newBuffer size addr).arr.length = 0) := by
  simp [newBuffer]

theorem buffer.Grow_inv (b : buffer) (s : Nat) (hlen : b.len ≤ b.arr.length)
    (hz : b.len = 0 → b.arr.length = 0) :
    (b.Grow s).2.len ≤ (b.Grow s).2.arr.length ∧
      ((b.Grow s).2.len = 0 → (b.Grow s).2.arr.length = 0) := by
  by_cases h : b.arr.length < s
  · rw [buffer.Grow_of_gt b h]
    refine ⟨?_, ?_⟩
    · show s ≤ (b.arr ++ List.replicate (s - b.arr.length) 0).length
      simp only [List.length_append, List.length_replicate]
      omega
    · intro h0
      have h0' : s = 0 := h0
      omega
  · rw [buffer.Grow_of_le b (by omega)]
    refine ⟨?_, ?_⟩
    · show max b.len s ≤ b.arr.length
      omega
    · intro h0
      have h0' : max b.len s = 0 := h0
      have hcap := hz (by omega)
      show b.arr.length = 0
      omega

/-! Helper lemmas about signature checking. -/

theorem zip_all_eq (l : List ValueType) :
    ∀ r : List ValueType, l.length = r.length →
      ((((l.zip r).all fun p => decide (p.1 = p.2)) = true) ↔ l = r) := by
  induction l with
  | nil =>
    intro r h
    cases r with
    | nil => simp
    | cons b r => simp at h
  | cons a l ih =>
    intro r h
    cases r with
    | nil => simp at h
    | cons b r =>
      simp only [List.zip_cons_cons, List.all_cons, Bool.and_eq_true,
        decide_eq_true_eq, List.cons.injEq]
      have hr := ih r (by simpa using h)
      constructor
      · rintro ⟨h1, h2⟩
        exact ⟨h1, hr.mp h2⟩
      · rintro ⟨h1, h2⟩
        exact ⟨h1, hr.mpr h2⟩

theorem isValidFunctionDefinition_iff (want : functionDefinition)
    (got : apiFunctionDefinition) :
    isValidFunctionDefinition want got = true ↔
      (got.params = want.paramTypes ∧ got.results = want.resultTypes) := by
  unfold isValidFunctionDefinition
  by_cases hl : got.params.length ≠ want.paramTypes.length ∨
      got.results.length ≠ want.resultTypes.length
  · rw [if_pos hl]
    simp only [Bool.false_eq_true, false_iff]
    rintro ⟨h1, h2⟩
    rcases hl with hl | hl
    · exact hl (by rw [h1])
    · exact hl (by rw [h2])
  · rw [if_neg hl]
    push_neg at hl
    rw [Bool.and_eq_true, zip_all_eq _ _ hl.1, zip_all_eq _ _ hl.2]

/-! The claims. -/

/-- Claim C1: dispatch routing of Server.Handle. A method name without a
slash yields Unimplemented "malformed method name"; a name /S/M with an
unregistered service yields Unimplemented "unknown service"; with a
registered service but unknown method it yields Unimplemented
"unknown method"; and when both exist it invokes exactly the registered
handler on the request bytes. -/
theorem server_handle_dispatch_routing (s : Server) (S M : List Char)
    (req : List Nat) (hS : '/' ∉ S) (hM : '/' ∉ M) :
    (∀ g : List Char, '/' ∉ g →
      Server.Handle s g req =
        some (Server.handleError ⟨codeUnimplemented, strBytes "malformed method name"⟩)) ∧
    (assocLookup s.services S = none →
      Server.Handle s ('/' :: S ++ '/' :: M) req =
        some (Server.handleError ⟨codeUnimplemented, strBytes "unknown service"⟩)) ∧
    (∀ srv : serviceInfo, assocLookup s.services S = some srv →
      assocLookup srv.methods M = none →
      Server.Handle s ('/' :: S ++ '/' :: M) req =
        some (Server.handleError ⟨codeUnimplemented, strBytes "unknown method"⟩)) ∧
    (∀ (srv : serviceInfo) (h : HandlerFn), assocLookup s.services S = some srv →
      assocLookup srv.methods M = some h →
      Server.Handle s ('/' :: S ++ '/' :: M) req =
        some (match h req with
          | .error st => Server.handleError st
          | .ok respBytes => 0 :: respBytes)) := by
  refine ⟨?_, ?_, ?_, ?_⟩
  · intro g hg
    rw [Server.Handle, lastIdx_eq_none hg]
  · intro hnone
    rw [Server.Handle_route s S M req hS hM, hnone]
  · intro srv hsrv hm
    rw [Server.Handle_route s S M req hS hM]
    simp only [hsrv, hm]
  · intro srv h hsrv hh
    rw [Server.Handle_route s S M req hS hM]
    simp only [hsrv, hh]
    cases h req <;> rfl

/-- Witness for C1 on a concrete registry: all four routes evaluated. -/
theorem server_handle_dispatch_routing_witness :
    Server.Handle sampleServer (strChars "NoSlash") [9] =
      some (Server.handleError ⟨codeUnimplemented, strBytes "malformed method name"⟩) ∧
    Server.Handle sampleServer ('/' :: strChars "Missing" ++ '/' :: strChars "Method") [9] =
      some (Server.handleError ⟨codeUnimplemented, strBytes "unknown service"⟩) ∧
    Server.Handle sampleServer ('/' :: strChars "Svc" ++ '/' :: strChars "Missing") [9] =
      some (Server.handleError ⟨codeUnimplemented, strBytes "unknown method"⟩) ∧
    Server.Handle sampleServer ('/' :: strChars "Svc" ++ '/' :: strChars "Method") [9] =
      some [0, 37, 9] :=
  ⟨(server_handle_dispatch_routing sampleServer (strChars "Svc") (strChars "Method") [9]
      (by decide) (by decide)).1 (strChars "NoSlash") (by decide),
    (server_handle_dispatch_routing sampleServer (strChars "Missing") (strChars "Method") [9]
      (by decide) (by decide)).2.1 rfl,
    (server_handle_dispatch_routing sampleServer (strChars "Svc") (strChars "Missing") [9]
      (by decide) (by decide)).2.2.1 _ rfl rfl,
    (server_handle_dispatch_routing sampleServer (strChars "Svc") (strChars "Method") [9]
      (by decide) (by decide)).2.2.2 _ _ rfl rfl⟩

/-- Claim C2: error and success propagation. A handler error is framed by
the dispatcher as discriminator byte 1 plus the encoded status record and
the client decodes it back to a structured error exposing exactly the
status code and message; a handler success is framed with byte 0 and the
client hands exactly the remaining bytes to the response record decoder. -/
theorem wire_error_propagation (s : Server) (S M : List Char) (req : List Nat)
    (hS : '/' ∉ S) (hM : '/' ∉ M) (srv : serviceInfo) (h : HandlerFn)
    (hsrv : assocLookup s.services S = some srv)
    (hh : assocLookup srv.methods M = some h) :
    (∀ st : GrpcStatus, h req = .error st →
      Server.Handle s ('/' :: S ++ '/' :: M) req = some (1 :: statusEncode st) ∧
      clientProcessResponse (1 :: statusEncode st) = .statusErr st) ∧
    (∀ b : List Nat, h req = .ok b →
      Server.Handle s ('/' :: S ++ '/' :: M) req = some (0 :: b) ∧
      clientProcessResponse (0 :: b) = .okPayload b) := by
  constructor
  · intro st hst
    refine ⟨?_, ?_⟩
    · rw [Server.Handle_route s S M req hS hM]
      simp only [hsrv, hh, hst]
      rfl
    · simp [clientProcessResponse, statusDecode_encode]
  · intro b hb
    refine ⟨?_, ?_⟩
    · rw [Server.Handle_route s S M req hS hM]
      simp only [hsrv, hh, hb]
    · simp [clientProcessResponse]

/-- Witness for C2: the division-by-zero example with code invalid
argument (3) observed on the client side with exactly that code and
message. -/
theorem wire_error_propagation_witness :
    Server.Handle calcServer ('/' :: strChars "Calc" ++ '/' :: strChars "Div") [5] =
      some (1 :: statusEncode ⟨codeInvalidArgument, strBytes "division by zero"⟩) ∧
    clientProcessResponse (1 :: statusEncode ⟨codeInvalidArgument, strBytes "division by zero"⟩) =
      .statusErr ⟨codeInvalidArgument, strBytes "division by zero"⟩ :=
  (wire_error_propagation calcServer (strChars "Calc") (strChars "Div") [5]
    (by decide) (by decide) _ _ rfl rfl).1 _ rfl

/-- Claim C3: pointer packing round-trip. For pointers and sizes
representable in 32 bits, decoding the packed 64-bit value recovers
exactly the pair; buffer.PointerAndSize is that packing of the buffer's
pointer and length, and a zero-length buffer has the zero pointer
sentinel and packs to the all-zero value. -/
theorem packed_address_roundtrip (p s : Nat) (hp : p < 2 ^ 32) (hs : s < 2 ^ 32) :
    (unpackPtr (packPtrSize p s) = p ∧ unpackSize (packPtrSize p s) = s) ∧
    (∀ b : buffer, b.PointerAndSize = packPtrSize b.Pointer b.len) ∧
    (∀ b : buffer, b.len = 0 → b.Pointer = 0 ∧ b.PointerAndSize = 0) := by
  refine ⟨⟨?_, ?_⟩, ?_, ?_⟩
  · rw [packPtrSize_shift p s hp hs]
    exact unpackPtr_lor p s hp hs
  · rw [packPtrSize_shift p s hp hs]
    exact unpackSize_lor p s hp hs
  · intro b
    rfl
  · intro b hb
    have hptr : b.Pointer = 0 := by rw [buffer.Pointer, if_pos hb]
    refine ⟨hptr, ?_⟩
    rw [buffer.PointerAndSize, hptr, hb]
    decide

/-- Witness for C3 at pointer 5, size 7, and a concrete empty buffer. -/
theorem packed_address_roundtrip_witness :
    (unpackPtr (packPtrSize 5 7) = 5 ∧ unpackSize (packPtrSize 5 7) = 7) ∧
    buffer.Pointer ⟨[], 0, 99⟩ = 0 ∧ buffer.PointerAndSize ⟨[], 0, 99⟩ = 0 :=
  ⟨(packed_address_roundtrip 5 7 (by decide) (by decide)).1,
    (packed_address_roundtrip 5 7 (by decide) (by decide)).2.2 ⟨[], 0, 99⟩ rfl⟩

/-- Claim C4: buffer growth. After Grow(n), a Grow(m) with m at most the
resulting capacity reports no reallocation, keeps the capacity, pointer
and backing bytes (hence the first min(n, m) bytes) unchanged; a Grow
beyond the capacity reallocates and preserves the bytes below the old
length; and Grow never shrinks the length. The two hypotheses are the
data-model invariants of every buffer reachable through newBuffer and
Grow (newBuffer_inv, buffer.Grow_inv). -/
theorem buffer_grow_idempotent (b : buffer) (n m : Nat)
    (hlen : b.len ≤ b.arr.length) (hz : b.len = 0 → b.arr.length = 0) :
    (m ≤ (b.Grow n).2.arr.length →
      ((b.Grow n).2.Grow m).1 = false ∧
      ((b.Grow n).2.Grow m).2.arr.length = (b.Grow n).2.arr.length ∧
      ((b.Grow n).2.Grow m).2.Pointer = (b.Grow n).2.Pointer ∧
      ((b.Grow n).2.Grow m).2.arr.take (min n m) = (b.Grow n).2.arr.take (min n m)) ∧
    (b.arr.length < m →
      (b.Grow m).1 = true ∧ (b.Grow m).2.arr.take b.len = b.arr.take b.len) ∧
    b.len ≤ (b.Grow m).2.len := by
  refine ⟨?_, ?_, ?_⟩
  · intro hm
    rw [buffer.Grow_of_le _ hm]
    refine ⟨rfl, rfl, ?_, rfl⟩
    show (buffer.mk (b.Grow n).2.arr (max (b.Grow n).2.len m) (b.Grow n).2.addr).Pointer =
      (b.Grow n).2.Pointer
    rw [buffer.Pointer, buffer.Pointer]
    by_cases hl : (b.Grow n).2.len = 0
    · have hcap := (buffer.Grow_inv b n hlen hz).2 hl
      have hm0 : m = 0 := by omega
      rw [if_pos (by show max (b.Grow n).2.len m = 0; omega), if_pos hl]
    · rw [if_neg (by show ¬ max (b.Grow n).2.len m = 0; omega), if_neg hl]
  · intro hm
    rw [buffer.Grow_of_gt b hm]
    refine ⟨rfl, ?_⟩
    show (b.arr ++ List.replicate (m - b.arr.length) 0).take b.len = b.arr.take b.len
    rw [List.take_eq_left_iff]
    exact Or.inr hlen
  · by_cases hm2 : b.arr.length < m
    · rw [buffer.Grow_of_gt b hm2]
      show b.len ≤ m
      omega
    · rw [buffer.Grow_of_le b (by omega)]
      show b.len ≤ max b.len m
      omega

/-- Witness for C4: a 3-byte buffer grown to 5 and then to 4. -/
theorem buffer_grow_idempotent_witness :
    (4 ≤ ((buffer.mk [1, 2, 3] 3 40).Grow 5).2.arr.length →
      (((buffer.mk [1, 2, 3] 3 40).Grow 5).2.Grow 4).1 = false ∧
      (((buffer.mk [1, 2, 3] 3 40).Grow 5).2.Grow 4).2.arr.length =
        ((buffer.mk [1, 2, 3] 3 40).Grow 5).2.arr.length ∧
      (((buffer.mk [1, 2, 3] 3 40).Grow 5).2.Grow 4).2.Pointer =
        ((buffer.mk [1, 2, 3] 3 40).Grow 5).2.Pointer ∧
      (((buffer.mk [1, 2, 3] 3 40).Grow 5).2.Grow 4).2.arr.take (min 5 4) =
        ((buffer.mk [1, 2, 3] 3 40).Grow 5).2.arr.take (min 5 4)) ∧
    ((buffer.mk [1, 2, 3] 3 40).arr.length < 4 →
      ((buffer.mk [1, 2, 3] 3 40).Grow 4).1 = true ∧
      ((buffer.mk [1, 2, 3] 3 40).Grow 4).2.arr.take (buffer.mk [1, 2, 3] 3 40).len =
        (buffer.mk [1, 2, 3] 3 40).arr.take (buffer.mk [1, 2, 3] 3 40).len) ∧
    (buffer.mk [1, 2, 3] 3 40).len ≤ ((buffer.mk [1, 2, 3] 3 40).Grow 4).2.len :=
  buffer_grow_idempotent ⟨[1, 2, 3], 3, 40⟩ 5 4 (by decide) (by decide)

/-- Claim C5 counterexample: the host-side allocation definition does not
have the single size parameter the claim states; a module exporting
hornet-v1-malloc with exactly the claimed (i32) -> (i32) signature is
rejected by the binding with a signature mismatch. -/
theorem malloc_signature_counterexample :
    mallocFunctionDefinition.paramTypes ≠ [ValueType.i32] ∧
    getExportedFunction
        (fun nm => if nm = "hornet-v1-malloc" then
          some ⟨[ValueType.i32], [ValueType.i32]⟩ else none)
        mallocFunctionDefinition =
      some (.error (.mismatch mallocFunctionDefinition [ValueType.i32] [ValueType.i32])) := by
  exact ⟨by decide, rfl⟩

/-- Claim C5 as amended: the allocation export is named hornet-v1-malloc
and the host-side binding expects two i32 parameters (pointer, size) and
one i32 pointer result, accepting an export exactly when it matches this
signature; the sandbox-side malloc grows the module-global buffer to the
requested size and returns its pointer. -/
theorem malloc_signature_amended :
    mallocFunctionDefinition.name = "hornet-v1-malloc" ∧
    mallocFunctionDefinition.paramTypes = [ValueType.i32, ValueType.i32] ∧
    mallocFunctionDefinition.resultTypes = [ValueType.i32] ∧
    (∀ (module : ModuleExports) (d : apiFunctionDefinition),
      module mallocFunctionDefinition.name = some d →
      (getExportedFunction module mallocFunctionDefinition = some (.ok d) ↔
        (d.params = [ValueType.i32, ValueType.i32] ∧ d.results = [ValueType.i32]))) ∧
    (∀ (size : Nat) (b : buffer), b.len ≤ b.arr.length →
      (malloc size b).1 = (malloc size b).2.Pointer ∧
      (malloc size b).2.len = max b.len size ∧
      size ≤ (malloc size b).2.arr.length) := by
  refine ⟨rfl, rfl, rfl, ?_, ?_⟩
  · intro module d hd
    rw [getExportedFunction]
    simp only [hd]
    constructor
    · intro hok
      by_cases hv : isValidFunctionDefinition mallocFunctionDefinition d = true
      · exact (isValidFunctionDefinition_iff _ _).mp hv
      · rw [if_neg hv] at hok
        simp at hok
    · intro hdr
      rw [if_pos ((isValidFunctionDefinition_iff _ _).mpr hdr)]
  · intro size b hlen
    by_cases hc : b.arr.length < size
    · simp only [malloc]
      rw [buffer.Grow_of_gt b hc]
      refine ⟨trivial, ?_, ?_⟩
      · show size = max b.len size
        omega
      · show size ≤ (b.arr ++ List.replicate (size - b.arr.length) 0).length
        simp only [List.length_append, List.length_replicate]
        omega
    · simp only [malloc]
      rw [buffer.Grow_of_le b (by omega)]
      refine ⟨trivial, rfl, ?_⟩
      show size ≤ b.arr.length
      omega

/-- Witness for C5: the binding accepts the two-parameter export, and
malloc of size 5 on a 2-byte buffer grows it to length 5. -/
theorem malloc_signature_amended_witness :
    getExportedFunction
        (fun nm => if nm = "hornet-v1-malloc" then
          some ⟨[ValueType.i32, ValueType.i32], [ValueType.i32]⟩ else none)
        mallocFunctionDefinition =
      some (.ok ⟨[ValueType.i32, ValueType.i32], [ValueType.i32]⟩) ∧
    (malloc 5 (newBuffer 2 100)).2.len = max (newBuffer 2 100).len 5 :=
  ⟨(malloc_signature_amended.2.2.2.1 _ _ rfl).mpr ⟨rfl, rfl⟩,
    (malloc_signature_amended.2.2.2.2 5 (newBuffer 2 100) (by decide)).2.1⟩

/-- Claim C6 (code bug): when the export is absent, getExportedFunction
does not return the missing-export error: the recovered Definition()
panic is followed by an unrecovered nil dereference inside
isValidFunctionDefinition, so the call crashes (none). The mismatch and
exact-match paths behave as the claim states. -/
theorem export_binding_missing_crash :
    getExportedFunction (fun _ => none) mallocFunctionDefinition = none ∧
    getExportedFunction
        (fun nm => if nm = "hornet-v1-command" then
          some ⟨[ValueType.i32, ValueType.i32], [ValueType.i64]⟩ else none)
        commandFunctionDefinition =
      some (.error (.mismatch commandFunctionDefinition
        [ValueType.i32, ValueType.i32] [ValueType.i64])) ∧
    getExportedFunction
        (fun nm => if nm = "hornet-v1-command" then
          some ⟨[ValueType.i32, ValueType.i32, ValueType.i32], [ValueType.i64]⟩ else none)
        commandFunctionDefinition =
      some (.ok ⟨[ValueType.i32, ValueType.i32, ValueType.i32], [ValueType.i64]⟩) :=
  ⟨rfl, rfl, rfl⟩

/-- Claim C7: calls on a closed module. Invoke returns immediately with
the "module is closed" error, with the connection state untouched and an
empty interaction trace: no malloc call, no command call, no memory
write. -/
theorem invoke_closed_module (w : WasmModule) (c : ConnState) (method : List Char)
    (reqEnc : List Nat) (h : w.isClosed = true) :
    ClientConn.Invoke w c method reqEnc = (.transportErr "module is closed", c, []) := by
  simp [ClientConn.Invoke, h]

/-- Witness for C7 on a concrete closed module. -/
theorem invoke_closed_module_witness :
    ClientConn.Invoke
        ⟨true, fun _ => 0, fun _ _ _ => 0, fun _ _ => none, fun _ _ => false⟩
        ⟨[], 0, 0⟩ (strChars "/Svc/Method") [9] =
      (.transportErr "module is closed", ⟨[], 0, 0⟩, []) :=
  invoke_closed_module _ _ _ _ rfl

/-- Claim C8: duplicate registration. Registering a service whose name is
already present fails with the duplicate-registration error, leaves the
registry unchanged, and dispatch over the resulting registry behaves
exactly as before the failed registration. -/
theorem register_duplicate_service (s : Server) (sd : ServiceDesc) (srv : serviceInfo)
    (h : assocLookup s.services sd.serviceName = some srv) :
    (s.register sd).1 = some (duplicateRegistrationError sd.serviceName) ∧
    (s.register sd).2 = s ∧
    (∀ (fn : List Char) (req : List Nat),
      Server.Handle (s.register sd).2 fn req = Server.Handle s fn req) := by
  have hreg : s.register sd = (some (duplicateRegistrationError sd.serviceName), s) := by
    rw [Server.register]
    simp only [h]
  rw [hreg]
  exact ⟨rfl, rfl, fun _ _ => rfl⟩

/-- Witness for C8: re-registering Svc on the sample registry fails and
leaves the registry as it was. -/
theorem register_duplicate_service_witness :
    (sampleServer.register ⟨strChars "Svc", []⟩).1 =
      some (duplicateRegistrationError (strChars "Svc")) ∧
    (sampleServer.register ⟨strChars "Svc", []⟩).2 = sampleServer :=
  ⟨(register_duplicate_service sampleServer ⟨strChars "Svc", []⟩ _ rfl).1,
    (register_duplicate_service sampleServer ⟨strChars "Svc", []⟩ _ rfl).2.1⟩

/-- Claim C9 (code bug): the default plugin handler omits the leading
discriminator byte. Its output starts with the protobuf tag byte 8, not
with 1, so the client's response processing takes the success branch and
hands the status bytes to the response decoder instead of reporting the
Unimplemented status; had the handler prepended the byte 1 (as
Server.handleError does), the client would decode exactly the intended
"no plugin handler set" Unimplemented status. -/
theorem default_handler_misframed :
    (defaultPluginHandler (strChars "/calculator.v1.Calculator/Add") []).head? = some 8 ∧
    clientProcessResponse (defaultPluginHandler (strChars "/calculator.v1.Calculator/Add") []) =
      .okPayload ((defaultPluginHandler (strChars "/calculator.v1.Calculator/Add") []).drop 1) ∧
    clientProcessResponse (1 :: defaultPluginHandler (strChars "/calculator.v1.Calculator/Add") []) =
      .statusErr ⟨codeUnimplemented,
        strBytes "no plugin handler set, call hornet.InitPlugin() in the Wasm plugin to set a handler"⟩ := by
  refine ⟨rfl, rfl, ?_⟩
  show clientProcessResponse (1 :: statusEncode _) = _
  simp [clientProcessResponse, statusDecode_encode]

/-- Claim C10: a method name whose only slash is its first character makes
Server.Handle evaluate fn[1:0], a slice-bounds violation: the embedding
returns no value (the Go code panics) instead of an error response. -/
theorem handle_leading_slash_panics (s : Server) (M : List Char) (req : List Nat)
    (hM : '/' ∉ M) :
    Server.Handle s ('/' :: M) req = none := by
  have hpos : lastIdx ('/' :: M) '/' = some 0 := by
    simpa using lastIdx_append_last [] hM
  have hsub : goSubstring ('/' :: M) 1 0 = none := by
    unfold goSubstring
    rw [if_neg (by omega)]
  rw [Server.Handle]
  simp only [hpos, hsub]

/-- Witness for C10 at the method name /Method. -/
theorem handle_leading_slash_panics_witness :
    Server.Handle sampleServer ('/' :: strChars "Method") [] = none :=
  handle_leading_slash_panics sampleServer (strChars "Method") [] (by decide)
